import Mathlib

/-!
Verification of the expense-tracker form component
(`src/components/Form.tsx`).

The component keeps two pieces of state: `expenses`, an ordered list of
expense records, and `filterCategory`, a view-local filter string.  The
form gathers a candidate `ExpenseFormData`, validates it with the rules
declared in the `register` calls, and on success appends a new record
whose `id` is `Date.now()` and resets the form to its default values.
Deletion replaces the list by `expenses.filter (e => e.id !== id)`, and
rendering projects the list through
`filter (e => !filterCategory || e.category === filterCategory)`.

We embed the record type, the field validation rules (with the
react-hook-form semantics of `required` / `min` / `max` / `minLength` /
`maxLength`: `required` fails exactly on the empty string, no trimming
is performed, `min`/`max` are inclusive numeric bounds), the submit
handler, the delete operation and the render projection as pure Lean
functions, and prove the specified properties about them.

The submission timestamp `Date.now()` is modelled as an explicit `now`
parameter of the submit handler, since the code reads the clock there.
Amounts are modelled as rationals; description lengths use the string
length, as does the JavaScript `.length` the library compares against.
-/

/-- One accepted expense record, as stored in the `expenses` state:
`{ id: number; description: string; amount: number; category: string }`. -/
structure Expense where
  id : Nat
  description : String
  amount : ℚ
  category : String
deriving DecidableEq, Repr

/-- The candidate gathered by the form (`ExpenseFormData`).  The amount
field of an HTML number input is the empty string when the user typed
nothing, which react-hook-form hands to the `required` rule before any
numeric rule runs; we model that state as `none`. -/
structure ExpenseFormData where
  description : String
  amount : Option ℚ
  category : String
deriving DecidableEq, Repr

/-- The spec's error taxonomy for per-field validation failures. -/
inductive FieldError where
  | RequiredField
  | TooShort
  | TooLong
  | OutOfRange
deriving DecidableEq, Repr

/-- Validation of `description`, from
`register("description", { required, minLength: 2, maxLength: 50 })`:
`required` fails exactly on the empty string (react-hook-form does not
trim), then the length bounds are checked. -/
def validateDescription (s : String) : Option FieldError :=
  if s = "" then some .RequiredField
  else if s.length < 2 then some .TooShort
  else if 50 < s.length then some .TooLong
  else none

/-- The numeric literal `0.01` of the `min` rule, as a rational. -/
def minAmount : ℚ := mkRat 1 100

/-- Validation of `amount`, from
`register("amount", { required, min: { value: 0.01 }, max: { value: 10000 } })`:
an empty input fails `required`; a present value fails the `min` rule when
below `0.01` and the `max` rule when above `10000` (both bounds
inclusive on the passing side). -/
def validateAmount (a : Option ℚ) : Option FieldError :=
  match a with
  | none => some .RequiredField
  | some v =>
    if v < minAmount then some .OutOfRange
    else if 10000 < v then some .OutOfRange
    else none

/-- Validation of `category`, from `register("category", { required })`:
the placeholder option has value `""`, and `required` fails exactly on
that empty string. -/
def validateCategory (c : String) : Option FieldError :=
  if c = "" then some .RequiredField else none

/-- The per-field error set react-hook-form builds (`formState.errors`). -/
structure FieldErrors where
  description : Option FieldError
  amount : Option FieldError
  category : Option FieldError
deriving DecidableEq, Repr

/-- Run all three field validations on a candidate. -/
def validateForm (f : ExpenseFormData) : FieldErrors :=
  { description := validateDescription f.description
  , amount := validateAmount f.amount
  , category := validateCategory f.category }

/-- Whether any field failed validation. -/
def hasErrors (e : FieldErrors) : Bool :=
  e.description.isSome || e.amount.isSome || e.category.isSome

/-- The record `onSubmit` constructs: `{ id: Date.now(), ...data }`.
`now` is the value `Date.now()` returned at this submission. -/
def newExpense (f : ExpenseFormData) (now : Nat) : Expense :=
  { id := now
  , description := f.description
  , amount := f.amount.getD 0
  , category := f.category }

/-- The `useForm` default values: `description: ""`, `amount: 0`,
`category: ""`; `reset()` restores them. -/
def defaultFormData : ExpenseFormData :=
  { description := "", amount := some 0, category := "" }

/-- One submission attempt: `handleSubmit(onSubmit)` validates the
candidate; on any error it leaves the store and the form values alone
and exposes the per-field errors; on success `onSubmit` appends
`newExpense` to `expenses` (immutable update `[...expenses, newExpense]`)
and `reset()` restores the defaults.  Returns the new store, the new
form values and the errors (if any). -/
def handleSubmit (store : List Expense) (f : ExpenseFormData) (now : Nat) :
    List Expense × ExpenseFormData × Option FieldErrors :=
  let errs := validateForm f
  if hasErrors errs then (store, f, some errs)
  else (store ++ [newExpense f now], defaultFormData, none)

/-- Deletion: `setExpenses(expenses.filter((e) => e.id !== expense.id))`. -/
def removeExpense (store : List Expense) (i : Nat) : List Expense :=
  store.filter fun e => e.id != i

/-- The rendered projection:
`expenses.filter((expense) => !filterCategory || expense.category === filterCategory)`.
The JavaScript `!filterCategory` is true exactly when the filter string
is empty. -/
def renderList (store : List Expense) (filterCategory : String) : List Expense :=
  store.filter fun e => filterCategory == "" || e.category == filterCategory

/-- The option values offered by the category `select` element; the user
can only submit one of these as the candidate's category. -/
def selectCategoryOptions : List String := ["", "食品", "交通", "娱乐"]

/-- The store invariant implied by the validation rules: description
length in `[2, 50]`, amount in `[0.01, 10000]`, category one of the
three real labels. -/
def GoodExpense (e : Expense) : Prop :=
  2 ≤ e.description.length ∧ e.description.length ≤ 50 ∧
  minAmount ≤ e.amount ∧ e.amount ≤ 10000 ∧
  e.category ∈ ["食品", "交通", "娱乐"]

instance (e : Expense) : Decidable (GoodExpense e) := by
  unfold GoodExpense; infer_instance

/-- Store states reachable from the initial empty store through the two
mutating operations of the component: a submission attempt (with a
candidate whose category comes from the `select` element's options and
an arbitrary clock value) and a delete request. -/
inductive Reachable : List Expense → Prop where
  | init : Reachable []
  | submit (store : List Expense) (f : ExpenseFormData) (now : Nat) :
      Reachable store → f.category ∈ selectCategoryOptions →
      Reachable (handleSubmit store f now).1
  | delete (store : List Expense) (i : Nat) :
      Reachable store → Reachable (removeExpense store i)

/-- A sample record: the spec's coffee example (amount 4.50). -/
def coffee : Expense :=
  { id := 1, description := "Coffee", amount := mkRat 9 2, category := "食品" }

/-- A second sample record with a different id and category. -/
def busTicket : Expense :=
  { id := 2, description := "Bus ticket", amount := 3, category := "交通" }

/-- A sample store holding the two records in insertion order. -/
def sampleStore : List Expense := [coffee, busTicket]

/-- A sample valid candidate for the coffee record. -/
def coffeeData : ExpenseFormData :=
  { description := "Coffee", amount := some (mkRat 9 2), category := "食品" }

/-- A second sample valid candidate. -/
def teaData : ExpenseFormData :=
  { description := "Tea", amount := some 3, category := "娱乐" }

/-- The store produced by two valid submissions whose `Date.now()` calls
both return 5 (two submissions in the same millisecond). -/
def collideStore : List Expense :=
  (handleSubmit (handleSubmit [] coffeeData 5).1 teaData 5).1

/-- The bound `minAmount` in the familiar fraction form. -/
theorem minAmount_eq : minAmount = 1 / 100 := by
  norm_num [minAmount]

/-- C5: rendering is a pure projection of the record list: with an empty
filter category it returns the list unchanged, and with a non-empty
filter category it returns exactly the subsequence of records whose
category equals the filter; the store list itself is never modified. -/
theorem renderList_projection (l : List Expense) (c : String) :
    (c = "" → renderList l c = l) ∧
    (c ≠ "" → renderList l c = l.filter fun e => e.category == c) := by
  constructor
  · intro h
    subst h
    simp [renderList]
  · intro h
    simp only [renderList, beq_iff_eq]
    rw [List.filter_congr]
    intro e _
    simp [h]

/-- Witness for C5 at a concrete store and the non-empty filter. -/
theorem renderList_projection_witness :
    renderList sampleStore "食品" = sampleStore.filter fun e => e.category == "食品" :=
  (renderList_projection sampleStore "食品").2 (by decide)

/-- C7: after `remove(id)`, no record with that id remains; every record
whose id differs is still present, entirely unchanged (it is the very
same record value); and nothing new appears. -/
theorem removeExpense_frame (l : List Expense) (i : Nat) :
    (∀ r ∈ removeExpense l i, r.id ≠ i) ∧
    (∀ r ∈ l, r.id ≠ i → r ∈ removeExpense l i) ∧
    (∀ r ∈ removeExpense l i, r ∈ l) := by
  refine ⟨?_, ?_, ?_⟩
  · intro r hr
    have := (List.mem_filter.mp hr).2
    simpa using this
  · intro r hr hne
    refine List.mem_filter.mpr ⟨hr, ?_⟩
    simpa using hne
  · intro r hr
    exact (List.mem_filter.mp hr).1

/-- Witness for C7: deleting id 1 from the sample store keeps the other
record intact. -/
theorem removeExpense_frame_witness :
    busTicket ∈ removeExpense sampleStore 1 :=
  (removeExpense_frame sampleStore 1).2.1 busTicket (by decide) (by decide)

/-- C8: removing an id that no record carries leaves the store exactly
unchanged, and removal is idempotent: removing the same id twice gives
the same store as removing it once. -/
theorem removeExpense_noop_idem (l : List Expense) (i : Nat) :
    ((∀ r ∈ l, r.id ≠ i) → removeExpense l i = l) ∧
    removeExpense (removeExpense l i) i = removeExpense l i := by
  constructor
  · intro h
    refine List.filter_eq_self.mpr ?_
    intro r hr
    simpa using h r hr
  · refine List.filter_eq_self.mpr ?_
    intro r hr
    exact (List.mem_filter.mp hr).2

/-- Witness for C8: removing the absent id 99 from the sample store is a
no-op. -/
theorem removeExpense_noop_idem_witness :
    removeExpense sampleStore 99 = sampleStore :=
  (removeExpense_noop_idem sampleStore 99).1 (by decide)

/-- Helper: the description validation passes exactly on a nonempty
description whose length lies in `[2, 50]`. -/
theorem validateDescription_none_iff (s : String) :
    validateDescription s = none ↔ s ≠ "" ∧ 2 ≤ s.length ∧ s.length ≤ 50 := by
  unfold validateDescription
  split_ifs with h1 h2 h3 <;> simp_all <;> omega

/-- Helper: the amount validation passes on a present value exactly when
it lies in `[0.01, 10000]`. -/
theorem validateAmount_none_iff (a : ℚ) :
    validateAmount (some a) = none ↔ minAmount ≤ a ∧ a ≤ 10000 := by
  show (if a < minAmount then some FieldError.OutOfRange
    else if 10000 < a then some FieldError.OutOfRange else none) = none ↔ _
  split_ifs with h1 h2 <;> simp_all [not_lt]

/-- Helper: the category validation passes exactly on a nonempty
category string. -/
theorem validateCategory_none_iff (c : String) :
    validateCategory c = none ↔ c ≠ "" := by
  unfold validateCategory
  split_ifs with h <;> simp_all

/-- C2 counterexample: the two-space description `"  "` consists only of
whitespace, yet the description validation passes (no `RequiredField`
error), and a full submission with it succeeds and appends a record —
react-hook-form's `required` rule does not trim, so only the genuinely
empty string fails it. -/
theorem whitespace_description_accepted :
    "  ".data = [' ', ' '] ∧
    validateDescription "  " = none ∧
    hasErrors (validateForm { description := "  ", amount := some 1, category := "食品" }) = false ∧
    (handleSubmit [] { description := "  ", amount := some 1, category := "食品" } 7).1 =
      [{ id := 7, description := "  ", amount := 1, category := "食品" }] := by
  decide

/-- C2 amended: `submit` fails with `RequiredField` on the description
exactly when the description is the empty string (whitespace is not
trimmed); it fails with `TooShort` exactly when the description is
nonempty of length below 2, and with `TooLong` exactly when its length
exceeds 50. -/
theorem validateDescription_spec (s : String) :
    (validateDescription s = some .RequiredField ↔ s = "") ∧
    (validateDescription s = some .TooShort ↔ s ≠ "" ∧ s.length < 2) ∧
    (validateDescription s = some .TooLong ↔ 50 < s.length) := by
  unfold validateDescription
  split_ifs with h1 h2 h3 <;> simp_all <;> omega

/-- C3 counterexample: `0.005` is strictly positive and at most 10000,
yet the amount validation rejects it with `OutOfRange`, because the
code's `min` rule bound is `0.01`, not `0`. -/
theorem small_amount_rejected :
    0 < mkRat 1 200 ∧ mkRat 1 200 ≤ 10000 ∧
    validateAmount (some (mkRat 1 200)) = some .OutOfRange := by
  decide

/-- C3 amended: the amount validation fails with `OutOfRange` exactly
when the present amount is outside `[0.01, 10000]`, i.e. an amount
passes exactly when `0.01 ≤ amount ≤ 10000`; an absent amount fails
with `RequiredField` instead. -/
theorem validateAmount_spec (a : ℚ) :
    (validateAmount (some a) = some .OutOfRange ↔ a < 1 / 100 ∨ 10000 < a) ∧
    (validateAmount (some a) = none ↔ 1 / 100 ≤ a ∧ a ≤ 10000) ∧
    validateAmount none = some .RequiredField := by
  rw [← minAmount_eq]
  show ((if a < minAmount then some FieldError.OutOfRange
      else if 10000 < a then some FieldError.OutOfRange else none) =
        some FieldError.OutOfRange ↔ _) ∧
    ((if a < minAmount then some FieldError.OutOfRange
      else if 10000 < a then some FieldError.OutOfRange else none) = none ↔ _) ∧ _
  refine ⟨?_, ?_, rfl⟩ <;> split_ifs with h1 h2 <;> simp_all [not_lt]

/-- C6: when any field fails validation, the submission attempt returns
the per-field errors, constructs no record, leaves the form values as
they were, and leaves the store exactly unchanged. -/
theorem submit_invalid_frame (store : List Expense) (f : ExpenseFormData) (now : Nat)
    (h : hasErrors (validateForm f) = true) :
    handleSubmit store f now = (store, f, some (validateForm f)) := by
  simp [handleSubmit, h]

/-- Witness for C6: submitting the all-empty candidate changes nothing
in the sample store. -/
theorem submit_invalid_frame_witness :
    handleSubmit sampleStore { description := "", amount := none, category := "" } 9 =
      (sampleStore, { description := "", amount := none, category := "" },
        some (validateForm { description := "", amount := none, category := "" })) :=
  submit_invalid_frame sampleStore
    { description := "", amount := none, category := "" } 9 (by decide)

/-- C9: when every field passes validation, the submission appends the
new record at the end of the store and resets the form values to the
defaults `description = ""`, `amount = 0`, `category = ""`. -/
theorem submit_valid_resets (store : List Expense) (f : ExpenseFormData) (now : Nat)
    (h : hasErrors (validateForm f) = false) :
    (handleSubmit store f now).2.1 = defaultFormData ∧
    defaultFormData =
      { description := "", amount := some 0, category := "" } ∧
    (handleSubmit store f now).1 = store ++ [newExpense f now] := by
  refine ⟨?_, rfl, ?_⟩ <;> simp [handleSubmit, h]

/-- Witness for C9: submitting the coffee candidate appends its record
and resets the form. -/
theorem submit_valid_resets_witness :
    (handleSubmit sampleStore coffeeData 5).2.1 = defaultFormData ∧
    defaultFormData =
      { description := "", amount := some 0, category := "" } ∧
    (handleSubmit sampleStore coffeeData 5).1 = sampleStore ++ [newExpense coffeeData 5] :=
  submit_valid_resets sampleStore coffeeData 5 (by decide)

/-- C1 counterexample: two valid submissions whose `Date.now()` values
coincide (same millisecond) append two records with the same id 5, so a
record's id is not always distinct from previously appended ids and
store ids are not always unique. -/
theorem submit_id_collision :
    hasErrors (validateForm coffeeData) = false ∧
    hasErrors (validateForm teaData) = false ∧
    collideStore.map Expense.id = [5, 5] ∧
    ¬ (collideStore.map Expense.id).Nodup := by
  decide

/-- C1 amended: a valid submission appends a record whose id is the
current clock value; provided that value differs from the id of every
record in the store (as when the clock strictly advances between
submissions), the new id is fresh, and pairwise-distinct store ids stay
pairwise distinct. -/
theorem submit_fresh_id (store : List Expense) (f : ExpenseFormData) (now : Nat)
    (hv : hasErrors (validateForm f) = false)
    (hfresh : now ∉ store.map Expense.id) :
    (handleSubmit store f now).1 = store ++ [newExpense f now] ∧
    (newExpense f now).id ∉ store.map Expense.id ∧
    ((store.map Expense.id).Nodup → ((handleSubmit store f now).1.map Expense.id).Nodup) := by
  refine ⟨by simp [handleSubmit, hv], hfresh, ?_⟩
  intro hnd
  have hstep : (handleSubmit store f now).1 = store ++ [newExpense f now] := by
    simp [handleSubmit, hv]
  rw [hstep, List.map_append]
  refine List.Nodup.append hnd (by simp) ?_
  intro x hx hy
  simp [newExpense] at hy
  subst hy
  exact hfresh hx

/-- Witness for C1: submitting the tea candidate at clock value 5 over
the sample store (ids 1 and 2) keeps the ids pairwise distinct. -/
theorem submit_fresh_id_witness :
    ((handleSubmit sampleStore teaData 5).1.map Expense.id).Nodup :=
  (submit_fresh_id sampleStore teaData 5 (by decide) (by decide)).2.2 (by decide)

/-- Helper: removing an id carried by no record leaves the store
unchanged. -/
theorem removeExpense_of_absent (l : List Expense) (i : Nat)
    (h : ∀ r ∈ l, r.id ≠ i) : removeExpense l i = l := by
  refine List.filter_eq_self.mpr ?_
  intro r hr
  simpa using h r hr

/-- Helper: with pairwise-distinct ids, removing the id of a present
record shrinks the store by exactly one. -/
theorem removeExpense_length_of_mem (l : List Expense) (i : Nat)
    (hnd : (l.map Expense.id).Nodup) (r : Expense) (hr : r ∈ l) (hid : r.id = i) :
    (removeExpense l i).length + 1 = l.length := by
  induction l with
  | nil => cases hr
  | cons a t ih =>
    rw [List.map_cons, List.nodup_cons] at hnd
    by_cases ha : a.id = i
    · have hdrop : removeExpense (a :: t) i = removeExpense t i := by
        simp [removeExpense, List.filter_cons, ha]
      have ht : ∀ x ∈ t, x.id ≠ i := fun x hx hxi =>
        hnd.1 (by rw [ha, ← hxi]; exact List.mem_map_of_mem Expense.id hx)
      rw [hdrop, removeExpense_of_absent t i ht]
      simp
    · have hkeep : removeExpense (a :: t) i = a :: removeExpense t i := by
        simp [removeExpense, List.filter_cons, ha]
      have hrt : r ∈ t := by
        rcases List.mem_cons.mp hr with h1 | h1
        · exact absurd (h1 ▸ hid) ha
        · exact h1
      rw [hkeep, List.length_cons, List.length_cons,
        ih hnd.2 hrt]

/-- C4 counterexample: the store reached by two same-millisecond valid
submissions holds two records that share id 5; deleting id 5 then
removes both records at once, not exactly one. -/
theorem remove_deletes_two :
    collideStore.length = 2 ∧
    (collideStore.map Expense.id).head? = some 5 ∧
    removeExpense collideStore 5 = [] ∧
    Reachable collideStore :=
  ⟨by decide, by decide, by decide,
    Reachable.submit _ teaData 5
      (Reachable.submit _ coffeeData 5 Reachable.init (by decide)) (by decide)⟩

/-- C4 amended: on a store whose ids are pairwise distinct (as holds
whenever no two submissions share a clock value), deletion preserves the
relative (insertion) order of the remaining records, removes exactly one
record when the id is present, and removes none when it is absent. -/
theorem removeExpense_exactly_one (l : List Expense) (i : Nat)
    (hnd : (l.map Expense.id).Nodup) :
    (removeExpense l i).Sublist l ∧
    (∀ r ∈ l, r.id = i → (removeExpense l i).length + 1 = l.length) ∧
    ((∀ r ∈ l, r.id ≠ i) → removeExpense l i = l) := by
  refine ⟨?_, ?_, removeExpense_of_absent l i⟩
  · unfold removeExpense
    exact List.filter_sublist l
  · intro r hr hid
    exact removeExpense_length_of_mem l i hnd r hr hid

/-- Witness for C4: deleting id 1 from the sample store (ids 1 and 2)
removes exactly one record. -/
theorem removeExpense_exactly_one_witness :
    (removeExpense sampleStore 1).length + 1 = sampleStore.length :=
  (removeExpense_exactly_one sampleStore 1 (by decide)).2.1 coffee (by decide) (by decide)

/-- C10: in every reachable store state, every record has a description
of length in `[2, 50]`, an amount in `[0.01, 10000]`, and one of the
three non-empty category labels — submissions only append records that
passed all field validations, and deletion only removes records. -/
theorem reachable_store_good (store : List Expense) (h : Reachable store) :
    ∀ e ∈ store, GoodExpense e := by
  induction h with
  | init => intro e he; cases he
  | submit s f now hr hcat ih =>
    intro e he
    by_cases hv : hasErrors (validateForm f) = true
    · have hs : (handleSubmit s f now).1 = s := by simp [handleSubmit, hv]
      rw [hs] at he
      exact ih e he
    · have hv' : hasErrors (validateForm f) = false := by simpa using hv
      have hs : (handleSubmit s f now).1 = s ++ [newExpense f now] := by
        simp [handleSubmit, hv']
      rw [hs] at he
      rcases List.mem_append.mp he with h1 | h1
      · exact ih e h1
      · have he2 : e = newExpense f now := by simpa using h1
        subst he2
        have hsplit : validateDescription f.description = none ∧
            validateAmount f.amount = none ∧ validateCategory f.category = none := by
          simpa [hasErrors, validateForm, and_assoc] using hv'
        obtain ⟨hd, ha, hc⟩ := hsplit
        obtain ⟨hne, hlen2, hlen50⟩ := (validateDescription_none_iff _).mp hd
        have hcne : f.category ≠ "" := (validateCategory_none_iff _).mp hc
        have hcmem : f.category ∈ ["食品", "交通", "娱乐"] := by
          simp only [selectCategoryOptions, List.mem_cons,
            List.not_mem_nil, or_false] at hcat
          rcases hcat with h1 | h1 | h1 | h1
          · exact absurd h1 hcne
          · simp [h1]
          · simp [h1]
          · simp [h1]
        cases hamt : f.amount with
        | none => rw [hamt] at ha; simp [validateAmount] at ha
        | some v =>
          rw [hamt] at ha
          obtain ⟨hv1, hv2⟩ := (validateAmount_none_iff v).mp ha
          simp only [GoodExpense, newExpense]
          refine ⟨hlen2, hlen50, ?_, ?_, hcmem⟩
          · rw [hamt]; simpa using hv1
          · rw [hamt]; simpa using hv2
  | delete s i hr ih =>
    intro e he
    have he' : e ∈ s := by
      have := List.mem_filter.mp he
      exact this.1
    exact ih e he'

/-- Witness for C10: the record produced by a first valid submission at
clock value 5 satisfies the store invariant. -/
theorem reachable_store_good_witness :
    GoodExpense (newExpense coffeeData 5) :=
  reachable_store_good (handleSubmit [] coffeeData 5).1
    (Reachable.submit [] coffeeData 5 Reachable.init (by decide))
    (newExpense coffeeData 5) (by decide)
